import Mathlib

/-!
Verification of the numeric helpers in `Kernel/LHCbMath/LHCbMath/LHCbMath.h`.

The C++ `double`/`float` values are modelled as rationals (`ℚ`), so all
arithmetic is exact; `std::vector` is modelled as `List ℚ`.  Every definition
below mirrors one entity of the header; functions that are only *declared* in
the header (their translation unit is not part of this fragment) are modelled
from the specification and say so in their doc comment.
-/

namespace LHCb.Math

/-- Tolerance constants of the header (lines 41-45). -/
def hiTolerance : ℚ := 1 / 10 ^ 40

/-- `lowTolerance` (line 42). -/
def lowTolerance : ℚ := 1 / 10 ^ 20

/-- `looseTolerance` (line 43). -/
def looseTolerance : ℚ := 1 / 10 ^ 5

/-- `mULPS_float` (line 56). -/
def mULPS_float : ℕ := 100

/-- `mULPS_float_low` (line 67). -/
def mULPS_float_low : ℕ := 1000

/-- `mULPS_double` (line 77). -/
def mULPS_double : ℕ := 1000

/-- `Equal_To<TYPE>` (header lines 148-166): its call operator constructs a
`std::equal_to<TYPE>` and applies it, i.e. it is exact equality of the two
arguments.  The header of this fragment contains no specialisation of
`Equal_To` for `double` or `float`, so the `double` instantiation is this
generic exact comparison. -/
def Equal_To (v1 v2 : ℚ) : Bool := v1 == v2

/-- Default value of the `epsilon` argument of `knuth_equal_to_double`
(header line 145): `1.0e-6`. -/
def knuth_default_epsilon : ℚ := 1 / 10 ^ 6

/-- Modelled from the spec: `knuth_equal_to_double` is only *declared* in the
header (lines 142-145); its body lives in a translation unit that is not part
of this fragment.  Spec section 4.1: `equal(a, b, epsilon)` returns true iff
`|a - b| <= epsilon * max(|a|, |b|, 1)`. -/
def knuth_equal_to_double (value1 value2 epsilon : ℚ) : Bool :=
  decide (|value1 - value2| ≤ epsilon * max (max |value1| |value2|) 1)

/-- `Zero<double>` (header lines 192-205): `!v || m_cmp(v, 0)` where `m_cmp`
is `Equal_To<double>`; `!v` on a `double` is `v == 0`.  The `Zero<float>`
specialisation (lines 207-220) is textually identical. -/
def Zero (v : ℚ) : Bool := (v == 0) || Equal_To v 0

/-- `NotZero<TYPE>` (header lines 230-248): negation of `Zero`. -/
def NotZero (v : ℚ) : Bool := !(Zero v)

/-- `Zero<std::vector<TYPE>>` (header lines 262-278): the vector is empty, or
`std::find_if` over it with the `NotZero` criterion reaches the end, i.e. no
element is `NotZero`. -/
def Zero_vec (v : List ℚ) : Bool := v.isEmpty || !(v.any fun x => NotZero x)

/-- `Small<TYPE>` (header lines 281-302): a functor holding one threshold
`m_a`. -/
structure Small where
  m_a : ℚ

/-- The `Small` constructor (header line 288): stores `std::abs(a)` of the
supplied threshold `a`. -/
def Small.make (a : ℚ) : Small := ⟨|a|⟩

/-- `Small::operator()` (header lines 290-291): `std::abs(a) <= m_a`. -/
def Small.isSmall (s : Small) (a : ℚ) : Bool := decide (|a| ≤ s.m_a)

/-- `Small<std::vector<TYPE>>` (header lines 311-337): built from the same
threshold as the per-element predicate; the vector is small iff it is empty or
`std::find_if` with the negated per-element predicate finds nothing, i.e. no
element fails `Small`. -/
def Small_vec (a : ℚ) (v : List ℚ) : Bool :=
  v.isEmpty || !(v.any fun x => !((Small.make a).isSmall x))

/-- `NumLess<TYPE>` (header lines 382-396): `m_less(o1, o2) && !m_equal(o1, o2)`
with `m_less = std::less<TYPE>` and `m_equal = Equal_To<TYPE>`. -/
def NumLess (o1 o2 : ℚ) : Bool := decide (o1 < o2) && !(Equal_To o1 o2)

/-- `round` (header lines 402-424): a wrapper around `boost::numeric::converter`
with the `RoundEven` rounding policy and the silent overflow handler.  The
Boost `RoundEven` policy takes `prev = floor(s)` and `next = ceil(s)`, compares the two
distances via `rt = (s - prev) - (next - s)` and picks the closer bound,
breaking an exact tie towards the even bound.  The silent overflow handler
performs no range check, so over `ℤ` the conversion is the identity. -/
def round (x : ℚ) : ℤ :=
  if (x - (⌊x⌋ : ℚ)) - ((⌈x⌉ : ℚ) - x) < 0 then ⌊x⌋
  else if 0 < (x - (⌊x⌋ : ℚ)) - ((⌈x⌉ : ℚ) - x) then ⌈x⌉
  else if Even ⌊x⌋ then ⌊x⌋ else ⌈x⌉

/-- Modelled from the spec: `frexp10` is only *declared* in the header
(lines 426-454); its body is not part of this fragment.  Spec section 4.6:
decompose `x = mantissa * 10 ^ exponent` with `0.1 <= |mantissa| < 1` for
nonzero `x`, and return `(0, 0)` for `x = 0`. -/
def frexp10 (x : ℚ) : ℚ × ℤ :=
  if x = 0 then (0, 0)
  else
    ((x / 10 ^ (Int.log 10 |x| + 1) : ℚ), Int.log 10 |x| + 1)

/-- `equal_to_int(int, double, ulps)` (header lines 521-527): the base overload
`equal_to_int(double, int, ulps)` is only *declared* in this fragment
(lines 507-510, a ULP comparison per spec section 4.7), so its comparison is
taken here as the parameter `base`; the inline swapped overload of the header
simply forwards its two value arguments in the other order. -/
def equal_to_int_swapped (base : ℚ → ℤ → ℕ → Bool) (ref : ℤ) (val : ℚ)
    (mULPS : ℕ) : Bool :=
  base val ref mULPS

/-- `equal_to_uint(unsigned int, double, ulps)` (header lines 552-558): same
forwarding for the unsigned variant, whose base overload is declared at
lines 538-541. -/
def equal_to_uint_swapped (base : ℚ → ℕ → ℕ → Bool) (ref : ℕ) (val : ℚ)
    (mULPS : ℕ) : Bool :=
  base val ref mULPS

/-- `std::fma(x, y, z) = x * y + z`; over `ℚ` the fused and the separate
computation coincide, both being exact. -/
def fma (x y z : ℚ) : ℚ := x * y + z

/-- The loop of `dot_fma` (header lines 629-639): `dot = fma(*it1, *it2, dot)`
over the two sequences.  The source loop is driven by the first sequence; the
model consumes both lists in step, which is identical for equal-length
inputs. -/
def dot_fma_loop : List ℚ → List ℚ → ℚ → ℚ
  | x :: xs, y :: ys, dot => dot_fma_loop xs ys (fma x y dot)
  | _, _, dot => dot

/-- `dot_fma` (header lines 629-639): accumulator initialised to `0` (a
`long double` in the source, wider than the `double` inputs; exact over `ℚ`). -/
def dot_fma (xs ys : List ℚ) : ℚ := dot_fma_loop xs ys 0

/-- `signed_sqrt` (header lines 592-597):
`0 < value ? std::sqrt(value) : -std::sqrt(std::abs(value))`.  The irrational
primitive `std::sqrt` is taken as the parameter `sqrt`, so the definition
captures exactly the branching of the source. -/
def signed_sqrt (sqrt : ℚ → ℚ) (value : ℚ) : ℚ :=
  if 0 < value then sqrt value else -(sqrt |value|)

/-- `Zero<double>` decides exact equality with zero: both of its disjuncts are
the exact comparison `v == 0`. -/
theorem Zero_eq_true_iff (v : ℚ) : Zero v = true ↔ v = 0 := by
  simp [Zero, Equal_To]

/-- The loop of `dot_fma` accumulates exactly the sum of the pairwise
products on top of its accumulator. -/
theorem dot_fma_loop_eq (xs : List ℚ) : ∀ (ys : List ℚ) (a : ℚ),
    dot_fma_loop xs ys a = (List.zipWith (· * ·) xs ys).sum + a := by
  induction xs with
  | nil => intro ys a; cases ys <;> simp [dot_fma_loop]
  | cons x xs ih =>
    intro ys a
    cases ys with
    | nil => simp [dot_fma_loop]
    | cons y ys => simp [dot_fma_loop, ih, fma]; ring

/-- Claim C1, counterexample: in this fragment the equality predicate
`Equal_To` is `std::equal_to`, not the Knuth comparison; at `a = 0` and
`b = 1e-7` the Knuth condition holds under the default epsilon, yet
`Equal_To` returns false, so the advertised equivalence fails. -/
theorem C1_counterexample :
    ¬ (Equal_To 0 (1 / 10 ^ 7) = true ↔
       |(0 : ℚ) - 1 / 10 ^ 7| ≤
         knuth_default_epsilon * max (max |(0 : ℚ)| |(1 / 10 ^ 7 : ℚ)|) 1) := by
  intro h
  have hle : |(0 : ℚ) - 1 / 10 ^ 7| ≤
      knuth_default_epsilon * max (max |(0 : ℚ)| |(1 / 10 ^ 7 : ℚ)|) 1 := by
    have h0 : |(0 : ℚ) - 1 / 10 ^ 7| = 1 / 10 ^ 7 := by
      rw [zero_sub, abs_neg]
      exact abs_of_nonneg (by norm_num)
    rw [h0, knuth_default_epsilon]
    calc (1 / 10 ^ 7 : ℚ) ≤ 1 / 10 ^ 6 * 1 := by norm_num
      _ ≤ 1 / 10 ^ 6 * max (max |(0 : ℚ)| |(1 / 10 ^ 7 : ℚ)|) 1 :=
          mul_le_mul_of_nonneg_left (le_max_right _ _) (by norm_num)
  have h2 := h.mpr hle
  simp only [Equal_To, beq_iff_eq] at h2
  exact absurd h2 (by norm_num)

/-- Claim C1 (amended): the modelled `knuth_equal_to_double` satisfies the
Knuth condition `|a-b| <= eps * max(|a|,|b|,1)`, with default epsilon `1e-6`,
and is reflexive for every nonnegative epsilon; `Equal_To` of this fragment
is exact equality, hence true whenever `a == b`, including both zero. -/
theorem C1_equal :
    (∀ a b eps : ℚ, knuth_equal_to_double a b eps = true ↔
        |a - b| ≤ eps * max (max |a| |b|) 1) ∧
    (∀ a b : ℚ, knuth_equal_to_double a b knuth_default_epsilon = true ↔
        |a - b| ≤ 1 / 10 ^ 6 * max (max |a| |b|) 1) ∧
    (∀ a eps : ℚ, 0 ≤ eps → knuth_equal_to_double a a eps = true) ∧
    (∀ a b : ℚ, Equal_To a b = true ↔ a = b) := by
  refine ⟨fun a b eps => ?_, fun a b => ?_, fun a eps heps => ?_, fun a b => ?_⟩
  · simp [knuth_equal_to_double]
  · simp [knuth_equal_to_double, knuth_default_epsilon]
  · simp only [knuth_equal_to_double, decide_eq_true_eq, sub_self, abs_zero]
    exact mul_nonneg heps (le_trans zero_le_one (le_max_right _ _))
  · simp [Equal_To]

/-- Claim C1, witness: the reflexivity part at `a = 5`, `eps = 0`. -/
theorem C1_witness : knuth_equal_to_double 5 5 0 = true :=
  C1_equal.2.2.1 5 0 (le_refl 0)

/-- Claim C2, counterexample: at `x = 1e-41` the Knuth condition against `0`
holds under the default epsilon (the spec reading of `equal(x, 0)`), yet
`Zero<double>` of this fragment returns false, because its comparison member
is the exact `Equal_To`. -/
theorem C2_counterexample :
    knuth_equal_to_double (1 / 10 ^ 41) 0 knuth_default_epsilon = true ∧
    Zero (1 / 10 ^ 41) = false := by
  constructor
  · simp only [knuth_equal_to_double, decide_eq_true_eq, knuth_default_epsilon]
    have h0 : |(1 / 10 ^ 41 : ℚ) - 0| = 1 / 10 ^ 41 := by
      rw [sub_zero]
      exact abs_of_nonneg (by norm_num)
    rw [h0]
    calc (1 / 10 ^ 41 : ℚ) ≤ 1 / 10 ^ 6 * 1 := by norm_num
      _ ≤ 1 / 10 ^ 6 * max (max |(1 / 10 ^ 41 : ℚ)| |(0 : ℚ)|) 1 :=
          mul_le_mul_of_nonneg_left (le_max_right _ _) (by norm_num)
  · norm_num [Zero, Equal_To, beq_eq_false_iff_ne]

/-- Claim C2 (amended): `Zero<double>` of this fragment decides exact equality
with zero (`!v || Equal_To(v, 0)` with exact `Equal_To`): it is true exactly
on `0`, so `isZero(0.0)` and `isZero(-0.0)` hold but `isZero(1e-41)` does
not. -/
theorem C2_isZero :
    (∀ x : ℚ, Zero x = true ↔ x = 0) ∧
    Zero 0 = true ∧ Zero (-0) = true ∧ Zero (1 / 10 ^ 41) = false := by
  refine ⟨Zero_eq_true_iff, ?_, ?_, ?_⟩
  · simp [Zero]
  · simp [Zero]
  · norm_num [Zero, Equal_To, beq_eq_false_iff_ne]

/-- Claim C3: the vector specialisation of `Zero` is true exactly on the
empty vector and on vectors all of whose elements are zero, and `NotZero` is
the pointwise negation of `Zero`. -/
theorem C3_zero_vec :
    (∀ v : List ℚ, Zero_vec v = true ↔ v = [] ∨ ∀ x ∈ v, x = 0) ∧
    (∀ x : ℚ, NotZero x = true ↔ ¬ Zero x = true) := by
  constructor
  · intro v
    simp [Zero_vec, NotZero, Zero, Equal_To, List.isEmpty_iff]
  · intro x
    simp [NotZero]

/-- Claim C3, witness: the singleton vector `[5]` is not zero, the vector
`[0, 0]` is. -/
theorem C3_witness :
    Zero_vec [5] = false ∧ Zero_vec [0, 0] = true := by
  constructor
  · rw [Bool.eq_false_iff]
    intro h
    rcases (C3_zero_vec.1 [5]).mp h with h5 | h5
    · exact absurd h5 (by simp)
    · exact absurd (h5 5 (by simp)) (by norm_num)
  · exact (C3_zero_vec.1 [0, 0]).mpr (Or.inr (by simp))

/-- Claim C4: the `Small` functor stores the absolute value of the threshold
supplied at construction, its call operator tests `|x| <= |a|`, and the
vector specialisation is true exactly on vectors that are empty or whose
elements all satisfy the per-element predicate with the same threshold. -/
theorem C4_small :
    (∀ a : ℚ, (Small.make a).m_a = |a|) ∧
    (∀ a x : ℚ, (Small.make a).isSmall x = true ↔ |x| ≤ |a|) ∧
    (∀ (a : ℚ) (v : List ℚ), Small_vec a v = true ↔
        v = [] ∨ ∀ x ∈ v, (Small.make a).isSmall x = true) := by
  refine ⟨fun a => rfl, fun a x => ?_, fun a v => ?_⟩
  · simp [Small.make, Small.isSmall]
  · simp [Small_vec, List.isEmpty_iff]

/-- Claim C4, witness: with threshold `-2` the value `1` is small and the
value `3` is not; the vector `[1, -2]` is small for that threshold. -/
theorem C4_witness :
    (Small.make (-2)).isSmall 1 = true ∧ Small_vec (-2) [1, -2] = true := by
  constructor
  · exact (C4_small.2.1 (-2) 1).mpr (by norm_num)
  · refine (C4_small.2.2 (-2) [1, -2]).mpr (Or.inr ?_)
    intro x hx
    rcases List.mem_pair.mp hx with rfl | rfl
    · exact (C4_small.2.1 (-2) 1).mpr (by norm_num)
    · exact (C4_small.2.1 (-2) (-2)).mpr (by norm_num)

/-- Claim C5: `NumLess` computes `less(a, b) && !Equal_To(a, b)`; it never
holds in both argument orders, and it is false on the diagonal. -/
theorem C5_numLess :
    (∀ a b : ℚ, NumLess a b = true ↔ a < b ∧ ¬ Equal_To a b = true) ∧
    (∀ a b : ℚ, ¬ (NumLess a b = true ∧ NumLess b a = true)) ∧
    (∀ a : ℚ, NumLess a a = false) := by
  have hiff : ∀ a b : ℚ, NumLess a b = true ↔ a < b ∧ ¬ Equal_To a b = true := by
    intro a b
    simp [NumLess, Equal_To]
  refine ⟨hiff, fun a b h => ?_, fun a => ?_⟩
  · exact lt_asymm ((hiff a b).mp h.1).1 ((hiff b a).mp h.2).1
  · rw [Bool.eq_false_iff]
    intro h
    exact lt_irrefl a ((hiff a a).mp h).1

/-- Claim C5, witness: `NumLess` holds on `(1, 2)` and fails on `(2, 1)`. -/
theorem C5_witness : NumLess 1 2 = true ∧ ¬ NumLess 2 1 = true := by
  have h12 : NumLess 1 2 = true :=
    (C5_numLess.1 1 2).mpr ⟨by norm_num, by simp [Equal_To]⟩
  exact ⟨h12, fun h21 => C5_numLess.2.1 1 2 ⟨h12, h21⟩⟩

/-- Claim C6: `round` returns an integer within a half of its argument,
breaking exact half-way ties towards the even integer
(IEEE roundTiesToEven); in particular `round(0.5) = 0`, `round(1.5) = 2`
and `round(2.5) = 2`. -/
theorem C6_round :
    (∀ x : ℚ, |x - (round x : ℚ)| ≤ 1 / 2 ∧
      (|x - (round x : ℚ)| = 1 / 2 → Even (round x))) ∧
    round (1 / 2) = 0 ∧ round (3 / 2) = 2 ∧ round (5 / 2) = 2 := by
  refine ⟨fun x => ?_, ?_, ?_, ?_⟩
  · have h1 : (⌊x⌋ : ℚ) ≤ x := Int.floor_le x
    have h2 : x ≤ (⌈x⌉ : ℚ) := Int.le_ceil x
    have h3 : (⌈x⌉ : ℚ) ≤ (⌊x⌋ : ℚ) + 1 := by
      exact_mod_cast Int.ceil_le_floor_add_one x
    rw [round]
    split_ifs with hneg hpos heven
    · -- the floor is strictly closer
      have habs : |x - ((⌊x⌋ : ℤ) : ℚ)| = x - (⌊x⌋ : ℚ) :=
        abs_of_nonneg (by linarith)
      exact ⟨by rw [habs]; linarith, fun h => by rw [habs] at h; linarith⟩
    · -- the ceiling is strictly closer
      have hge := not_lt.mp hneg
      have habs : |x - ((⌈x⌉ : ℤ) : ℚ)| = (⌈x⌉ : ℚ) - x := by
        rw [abs_sub_comm]
        exact abs_of_nonneg (by linarith)
      exact ⟨by rw [habs]; linarith, fun h => by rw [habs] at h; linarith⟩
    · -- exact tie, even floor is picked
      have hge := not_lt.mp hneg
      have hle := not_lt.mp hpos
      have habs : |x - ((⌊x⌋ : ℤ) : ℚ)| = x - (⌊x⌋ : ℚ) :=
        abs_of_nonneg (by linarith)
      exact ⟨by rw [habs]; linarith, fun _ => heven⟩
    · -- exact tie with odd floor: the ceiling is the floor plus one, even
      have hge := not_lt.mp hneg
      have hle := not_lt.mp hpos
      have habs : |x - ((⌈x⌉ : ℤ) : ℚ)| = (⌈x⌉ : ℚ) - x := by
        rw [abs_sub_comm]
        exact abs_of_nonneg (by linarith)
      refine ⟨by rw [habs]; linarith, fun h => ?_⟩
      rw [habs] at h
      have hceq : (⌈x⌉ : ℤ) = ⌊x⌋ + 1 := by
        have hq : (⌈x⌉ : ℚ) = (⌊x⌋ : ℚ) + 1 := by linarith
        exact_mod_cast hq
      rw [hceq]
      exact Int.even_add_one.mpr heven
  · have hf : ⌊(1 / 2 : ℚ)⌋ = 0 := by norm_num
    have hc : ⌈(1 / 2 : ℚ)⌉ = 1 := by
      rw [Int.ceil_eq_iff]
      norm_num
    rw [round, hf, hc]
    norm_num [Int.even_iff]
  · have hf : ⌊(3 / 2 : ℚ)⌋ = 1 := by norm_num
    have hc : ⌈(3 / 2 : ℚ)⌉ = 2 := by
      rw [Int.ceil_eq_iff]
      norm_num
    rw [round, hf, hc]
    norm_num [Int.even_iff]
  · have hf : ⌊(5 / 2 : ℚ)⌋ = 2 := by norm_num
    have hc : ⌈(5 / 2 : ℚ)⌉ = 3 := by
      rw [Int.ceil_eq_iff]
      norm_num
    rw [round, hf, hc]
    norm_num [Int.even_iff]

/-- Claim C6, witness: `5/2` sits exactly half-way, and the value `round`
picks for it is even. -/
theorem C6_witness : Even (round (5 / 2 : ℚ)) := by
  refine (C6_round.1 (5 / 2)).2 ?_
  rw [C6_round.2.2.2]
  norm_num

/-- Claim C7: `frexp10` (modelled from the spec) decomposes every nonzero
input as `mantissa * 10 ^ exponent` with `0.1 <= |mantissa| < 1`, returns
`(0, 0)` at zero, and maps `100` to `(0.1, 3)`. -/
theorem C7_frexp10 :
    (∀ x : ℚ, x ≠ 0 →
      x = (frexp10 x).1 * 10 ^ (frexp10 x).2 ∧
      1 / 10 ≤ |(frexp10 x).1| ∧ |(frexp10 x).1| < 1) ∧
    frexp10 0 = (0, 0) ∧ frexp10 100 = (1 / 10, 3) := by
  refine ⟨fun x hx => ?_, ?_, ?_⟩
  · have hxpos : (0 : ℚ) < |x| := abs_pos.mpr hx
    have hb : 1 < (10 : ℕ) := by norm_num
    have hcast : ((10 : ℕ) : ℚ) = (10 : ℚ) := by norm_num
    have h1 : (10 : ℚ) ^ Int.log 10 |x| ≤ |x| := by
      rw [← hcast]
      exact Int.zpow_log_le_self hb hxpos
    have h2 : |x| < (10 : ℚ) ^ (Int.log 10 |x| + 1) := by
      rw [← hcast]
      exact Int.lt_zpow_succ_log_self hb |x|
    have hppos : (0 : ℚ) < (10 : ℚ) ^ (Int.log 10 |x| + 1) :=
      zpow_pos (by norm_num) _
    have hpe : (10 : ℚ) ^ (Int.log 10 |x| + 1) =
        (10 : ℚ) ^ Int.log 10 |x| * 10 := zpow_add_one₀ (by norm_num) _
    rw [frexp10, if_neg hx]
    refine ⟨(div_mul_cancel₀ x (ne_of_gt hppos)).symm, ?_, ?_⟩
    · rw [abs_div, abs_of_pos hppos, le_div_iff₀ hppos]
      calc (1 : ℚ) / 10 * ((10 : ℚ) ^ (Int.log 10 |x| + 1)) =
          (10 : ℚ) ^ Int.log 10 |x| := by rw [hpe]; ring
        _ ≤ |x| := h1
    · rw [abs_div, abs_of_pos hppos, div_lt_one hppos]
      exact h2
  · rw [frexp10, if_pos rfl]
  · have habs : |(100 : ℚ)| = ((100 : ℕ) : ℚ) := by norm_num
    have hlog : Int.log 10 |(100 : ℚ)| = 2 := by
      rw [habs, Int.log_natCast]
      have h100 : Nat.log 10 100 = 2 :=
        Nat.log_eq_of_pow_le_of_lt_pow (by norm_num) (by norm_num)
      rw [h100]
      norm_num
    rw [frexp10, if_neg (by norm_num), hlog]
    have h3 : ((2 : ℤ) + 1) = ((3 : ℕ) : ℤ) := by norm_num
    rw [h3, zpow_natCast]
    norm_num

/-- Claim C7, witness: the multiply-back identity at the nonzero input
`100`. -/
theorem C7_witness :
    (100 : ℚ) = (frexp10 100).1 * 10 ^ (frexp10 100).2 :=
  (C7_frexp10.1 100 (by norm_num)).1

/-- Claim C8: on equal-length sequences `dot_fma` computes the exact sum of
the pairwise products (over `ℚ` the fused multiply-add accumulation is
exact), and `dot_fma [1,2,3] [4,5,6] = 32`. -/
theorem C8_dot_fma :
    (∀ xs ys : List ℚ, xs.length = ys.length →
      dot_fma xs ys = (List.zipWith (· * ·) xs ys).sum) ∧
    dot_fma [1, 2, 3] [4, 5, 6] = 32 := by
  constructor
  · intro xs ys _
    rw [dot_fma, dot_fma_loop_eq, add_zero]
  · rw [dot_fma, dot_fma_loop_eq, add_zero]
    norm_num

/-- Claim C8, witness: the sum-of-products form at the concrete equal-length
lists `[1, 2]` and `[3, 4]`. -/
theorem C8_witness :
    dot_fma [1, 2] [3, 4] = (List.zipWith (· * ·) [(1 : ℚ), 2] [3, 4]).sum :=
  C8_dot_fma.1 [1, 2] [3, 4] rfl

/-- Claim C9: the swapped-argument overloads of `equal_to_int` and
`equal_to_uint` forward to the base comparison with the two value arguments
exchanged, so the result does not depend on the order in which the floating
value and the integer reference are supplied — whatever the base comparison
is. -/
theorem C9_swapped :
    (∀ (base : ℚ → ℤ → ℕ → Bool) (ref : ℤ) (val : ℚ) (m : ℕ),
        equal_to_int_swapped base ref val m = base val ref m) ∧
    (∀ (base : ℚ → ℕ → ℕ → Bool) (ref : ℕ) (val : ℚ) (m : ℕ),
        equal_to_uint_swapped base ref val m = base val ref m) :=
  ⟨fun _ _ _ _ => rfl, fun _ _ _ _ => rfl⟩

/-- Claim C9, witness: the forwarding identity at a concrete base comparison
and concrete arguments. -/
theorem C9_witness :
    equal_to_int_swapped (fun v r _ => v == (r : ℚ)) 3 (7 : ℚ) 1000 =
      ((7 : ℚ) == ((3 : ℤ) : ℚ)) :=
  C9_swapped.1 (fun v r _ => v == (r : ℚ)) 3 7 1000

/-- Claim C10: `signed_sqrt` returns `sqrt(value)` when `0 < value` and the
negated square root of the absolute value otherwise; the non-positive branch
applies at `value = 0`, so `signed_sqrt 0` is the negated square root of
zero.  The square-root primitive is an arbitrary function `s`. -/
theorem C10_signed_sqrt :
    (∀ (s : ℚ → ℚ) (v : ℚ), 0 < v → signed_sqrt s v = s v) ∧
    (∀ (s : ℚ → ℚ) (v : ℚ), ¬ 0 < v → signed_sqrt s v = -(s |v|)) ∧
    (∀ s : ℚ → ℚ, signed_sqrt s 0 = -(s 0)) := by
  refine ⟨fun s v hv => ?_, fun s v hv => ?_, fun s => ?_⟩
  · rw [signed_sqrt, if_pos hv]
  · rw [signed_sqrt, if_neg hv]
  · rw [signed_sqrt, if_neg (lt_irrefl 0), abs_zero]

/-- Claim C10, witness: both branches at concrete inputs `4` and `-9`. -/
theorem C10_witness :
    signed_sqrt id 4 = id 4 ∧ signed_sqrt id (-9) = -(id |(-9 : ℚ)|) :=
  ⟨C10_signed_sqrt.1 id 4 (by norm_num),
   C10_signed_sqrt.2.1 id (-9) (by norm_num)⟩

end LHCb.Math
